import Mathlib

/-!
Shallow embedding of the report-ingestion and currency-normalization
pipeline of the appstore-connect-mcp repository:

* `FinanceService.parseCSVReport`, `convertToUSD`,
  `calculateRevenueMetricsFromData`, `decompressIfNeeded`,
  `getMonthlyRevenue` (src/services/finance-service.ts),
* `SubscriptionService.parseCSVReport`, `decompressIfNeeded`
  (src/services/subscription-service.ts),
* `FinanceReportService.parseFinanceReport`, `getFiscalPeriod`
  (finance-report-service, src/unnamed/part_005).

JavaScript numbers are modelled as `Option ℚ`: `some q` is a finite
number with exact decimal arithmetic, `none` is `NaN`.  All comparisons
involving `NaN` are false, and arithmetic on `NaN` yields `NaN`, as in
JavaScript.  JavaScript objects holding parsed report rows are modelled
as insertion-ordered association lists with assignment replacing the
first occurrence of a key, and absent keys reading as the empty string
(both `undefined` and `''` are falsy, and every read in the embedded
code flows through a truthiness test, so the collapse is faithful).
The `gunzipSync` primitive is modelled as an explicit oracle parameter
`List ℕ → Option (List ℕ)`; `none` models a decompression failure
(a thrown exception at the call site).
-/

namespace JS

/-- A JavaScript number: `some q` a finite value, `none` is `NaN`. -/
abbrev Num := Option ℚ

/-- `a || b` on strings: `''` (and the collapsed `undefined`) is falsy. -/
def jsOrS (a b : String) : String := if a = "" then b else a

/-- Truthiness of a JS number: `0` and `NaN` are falsy. -/
def truthyN (a : Num) : Bool :=
  match a with
  | none => false
  | some q => q != 0

/-- `a || b` on JS numbers. -/
def jsOrN (a b : Num) : Num := if truthyN a then a else b

/-- `a || b` where `b` is a plain rational (e.g. `row._proceedsUSD || 0`). -/
def jsOrNQ (a : Num) (b : ℚ) : ℚ :=
  match a with
  | none => b
  | some q => if q = 0 then b else q

/-- `a > b` on JS numbers: any comparison with `NaN` is false. -/
def nGt (a b : Num) : Bool :=
  match a, b with
  | some x, some y => y < x
  | _, _ => false

/-- `a > c` with a literal right-hand side. -/
def nGtQ (a : Num) (c : ℚ) : Bool := nGt a (some c)

/-- Addition on JS numbers; `NaN` propagates. -/
def nAdd (a b : Num) : Num :=
  match a, b with
  | some x, some y => some (x + y)
  | _, _ => none

/-- Multiplication by a rational; `NaN` propagates. -/
def nMulQ (a : Num) (c : ℚ) : Num := a.map (fun x => x * c)

/-- Negation; `NaN` propagates. -/
def nNeg (a : Num) : Num := a.map (fun x => -x)

/-- Sum of a list of JS numbers (`reduce` with `+`); `NaN` propagates. -/
def nSum (l : List Num) : Num := l.foldl nAdd (some 0)

/-- `Math.round`: round half toward positive infinity. -/
def jsRound (q : ℚ) : ℤ := ⌊q + 1 / 2⌋

/-- `Math.round(q * 100) / 100`: the 2-decimal presentation rounding. -/
def round2 (q : ℚ) : ℚ := mkRat (jsRound (q * 100)) 100

/-- Decimal digit value of a character, if it is a digit. -/
def digit? (c : Char) : Option ℕ :=
  if c.isDigit then some (c.toNat - '0'.toNat) else none

/-- Take the longest run of leading decimal digits. -/
def takeDigits : List Char → List ℕ × List Char
  | [] => ([], [])
  | c :: cs =>
    match digit? c with
    | some d =>
      let (ds, rest) := takeDigits cs
      (d :: ds, rest)
    | none => ([], c :: cs)

/-- Value of a digit run read as an integer. -/
def digitsVal (ds : List ℕ) : ℕ := ds.foldl (fun acc d => acc * 10 + d) 0

/-- Fractional value of a digit run read after the decimal point. -/
def fracVal (ds : List ℕ) : ℚ :=
  mkRat (digitsVal ds) (10 ^ ds.length)

/-- `10 ^ e` for an integer exponent, as a rational. -/
def pow10 (e : ℤ) : ℚ :=
  if 0 ≤ e then ((10 ^ e.toNat : ℕ) : ℚ) else mkRat 1 (10 ^ (-e).toNat)

/-- Whitespace skipped by JS numeric parsing. -/
def isJsWs (c : Char) : Bool := c = ' ' || c = '\t' || c = '\n' || c = '\r'

/-- Model of JS `parseFloat`: skip whitespace, optional sign, then the
longest `digits [. digits] [e|E [sign] digits]` prefix; `NaN` (`none`)
when no digit is found before the exponent. -/
def parseFloat (s : String) : Num :=
  let cs := s.data.dropWhile isJsWs
  let (neg, cs) :=
    match cs with
    | '-' :: rest => (true, rest)
    | '+' :: rest => (false, rest)
    | _ => (false, cs)
  let (intDs, cs) := takeDigits cs
  let (fracDs, cs) :=
    match cs with
    | '.' :: rest => takeDigits rest
    | _ => ([], cs)
  if intDs.isEmpty && fracDs.isEmpty then none
  else
    let mantissa : ℚ := (digitsVal intDs : ℚ) + fracVal fracDs
    let expo : ℤ :=
      match cs with
      | 'e' :: rest | 'E' :: rest =>
        let (eneg, rest) :=
          match rest with
          | '-' :: r => (true, r)
          | '+' :: r => (false, r)
          | _ => (false, rest)
        let (eDs, _) := takeDigits rest
        if eDs.isEmpty then 0
        else if eneg then -(digitsVal eDs : ℤ) else (digitsVal eDs : ℤ)
      | _ => 0
    let v := mantissa * pow10 expo
    some (if neg then -v else v)

/-- Model of JS `parseInt(s, 10)`: skip whitespace, optional sign, then
the longest run of decimal digits; `NaN` when there is none. -/
def parseInt (s : String) : Num :=
  let cs := s.data.dropWhile isJsWs
  let (neg, cs) :=
    match cs with
    | '-' :: rest => (true, rest)
    | '+' :: rest => (false, rest)
    | _ => (false, cs)
  let (ds, _) := takeDigits cs
  if ds.isEmpty then none
  else some (if neg then -(digitsVal ds : ℚ) else (digitsVal ds : ℚ))

/-- `charCodeAt`: `none` (`NaN`) when the index is out of range. -/
def charCodeAt (s : String) (i : ℕ) : Option ℕ :=
  (s.data.get? i).map Char.toNat

/-- Split a character list at every occurrence of `sep` (the semantics
of JS `String.prototype.split` with a single-character separator). -/
def splitCharAux (sep : Char) : List Char → List (List Char)
  | [] => [[]]
  | c :: cs =>
    if c = sep then [] :: splitCharAux sep cs
    else
      match splitCharAux sep cs with
      | [] => [[c]]
      | h :: t => (c :: h) :: t

/-- JS `s.split(sep)` for a single-character separator. -/
def splitChar (sep : Char) (s : String) : List String :=
  (splitCharAux sep s.data).map (fun cs => ⟨cs⟩)

/-- JS `s.trim()` (ASCII whitespace, which is all that occurs in the
tab-separated reports). -/
def jsTrim (s : String) : String :=
  ⟨((s.data.dropWhile isJsWs).reverse.dropWhile isJsWs).reverse⟩

/-- JS `s.toUpperCase()` (ASCII). -/
def jsToUpper (s : String) : String := ⟨s.data.map Char.toUpper⟩

/-- JS `s.toLowerCase()` (ASCII). -/
def jsToLower (s : String) : String := ⟨s.data.map Char.toLower⟩

end JS

/-- A parsed report row before enrichment: a JS object mapping column
names to string values, as an insertion-ordered association list. -/
abbrev Obj := List (String × String)

/-- Property read `o[k]`: `undefined` (absent) collapses to `""`. -/
def Obj.getS (o : Obj) (k : String) : String := (o.lookup k).getD ""

/-- Property write `o[k] = v`: replace the first binding in place, or
append a new binding (JS object insertion order). -/
def Obj.setS : Obj → String → String → Obj
  | [], k, v => [(k, v)]
  | (k', v') :: t, k, v =>
    if k' = k then (k, v) :: t else (k', v') :: Obj.setS t k v

/-- `row[header] = values[index] ? values[index].trim() : ''` for each
header in order (`headers.forEach` in both parseCSVReport variants). -/
def buildRow (headers values : List String) : Obj :=
  headers.enum.foldl (fun acc p => Obj.setS acc p.2 (JS.jsTrim (values.getD p.1 ""))) []

/-- Non-blank lines of the payload:
`csvData.split('\n').filter(line => line.trim())`. -/
def reportLines (csvData : String) : List String :=
  (JS.splitChar '\n' csvData).filter (fun l => JS.jsTrim l ≠ "")

namespace FinanceService

/-- The hardcoded approximate currency-to-USD rate table
(`FinanceService.currencyRates`). -/
def currencyRates : List (String × ℚ) :=
  [("USD", 1), ("EUR", 1.1), ("GBP", 1.27), ("CAD", 0.74), ("AUD", 0.65),
   ("MXN", 0.059), ("BRL", 0.20), ("IDR", 0.000065), ("INR", 0.012),
   ("JPY", 0.0067), ("KRW", 0.00075), ("CNY", 0.14), ("THB", 0.028),
   ("PHP", 0.018), ("VND", 0.000041), ("MYR", 0.21), ("SGD", 0.74),
   ("HKD", 0.13), ("TWD", 0.031), ("NZD", 0.61), ("CHF", 1.13),
   ("SEK", 0.095), ("NOK", 0.093), ("DKK", 0.15), ("PLN", 0.25),
   ("RUB", 0.011), ("TRY", 0.03), ("TZS", 0.00039), ("AED", 0.27),
   ("SAR", 0.27), ("ZAR", 0.053), ("ILS", 0.27), ("EGP", 0.021),
   ("NGN", 0.00065), ("KES", 0.0078), ("PEN", 0.27), ("COP", 0.00024),
   ("CLP", 0.0011), ("ARS", 0.001), ("RON", 0.22)]

/-- `convertToUSD(amount, currency)`: multiply by the table rate,
defaulting to `1` for unknown currency codes (`rates[c] || 1`). -/
def convertToUSD (amount : ℚ) (currency : String) : ℚ :=
  let rate := (currencyRates.lookup (JS.jsToUpper currency)).getD 1
  amount * rate

/-- `convertToUSD` lifted to a JS number (`NaN` propagates through the
multiplication). -/
def convertToUSDNum (amount : JS.Num) (currency : String) : JS.Num :=
  amount.map (fun a => convertToUSD a currency)

/-- `highValueCurrencies` in `parseCSVReport`. -/
def highValueCurrencies : List String :=
  ["IDR", "VND", "TZS", "KRW", "CLP", "COP"]

/-- A parsed row after the currency-enrichment map in
`FinanceService.parseCSVReport`: the original columns plus
`_customerCurrency`, `_customerPrice`, `_proceedsRaw`, `_proceedsUSD`. -/
structure EnhRow where
  fields : Obj
  customerCurrency : String
  customerPrice : JS.Num
  proceedsRaw : JS.Num
  proceedsUSD : JS.Num
deriving DecidableEq, Repr

/-- The per-row enrichment in `FinanceService.parseCSVReport`
(lines 434–476): reads `Customer Currency`, `Developer Proceeds` /
`Proceeds`, `Customer Price`, then applies the magnitude heuristic that
decides whether to run `convertToUSD` on the proceeds value. -/
def enhanceRow (row : Obj) : EnhRow :=
  let customerCurrency := JS.jsOrS (row.getS "Customer Currency") "USD"
  let proceedsRaw :=
    JS.parseFloat (JS.jsOrS (row.getS "Developer Proceeds") (JS.jsOrS (row.getS "Proceeds") "0"))
  let customerPrice := JS.parseFloat (JS.jsOrS (row.getS "Customer Price") "0")
  let proceedsUSD :=
    if highValueCurrencies.contains customerCurrency then
      -- high-rate currencies: convert only when the value looks large
      if JS.nGtQ proceedsRaw 1000 then convertToUSDNum proceedsRaw customerCurrency
      else proceedsRaw
    else if customerCurrency ≠ "USD" then
      -- other non-USD: keep when proceeds exceed twice the customer
      -- price, otherwise convert
      if JS.nGt proceedsRaw (JS.nMulQ customerPrice 2) then proceedsRaw
      else convertToUSDNum proceedsRaw customerCurrency
    else proceedsRaw
  ⟨row, customerCurrency, customerPrice, proceedsRaw, proceedsUSD⟩

/-- Result shape of `FinanceService.parseCSVReport`.  The two early
returns in the source produce objects without `reportType`, `headers`
or `rowCount`; those absent properties are modelled as `""`/`[]`/`0`. -/
structure ParsedReport where
  reportType : String
  headers : List String
  rows : List EnhRow
  rowCount : ℕ
  summary : String
deriving DecidableEq, Repr

/-- `FinanceService.parseCSVReport(csvData, reportType)`: split into
non-blank lines, first line is the tab-separated header, remaining
lines are data rows mapped positionally onto the headers, then each row
is enriched by `enhanceRow`. -/
def parseCSVReport (csvData : String) (reportType : String) : ParsedReport :=
  if csvData = "" then ⟨"", [], [], 0, "No data available"⟩
  else
    match reportLines csvData with
    | [] => ⟨"", [], [], 0, "Empty report"⟩
    | hdr :: dataLines =>
      let headers := (JS.splitChar '\t' hdr).map JS.jsTrim
      let rawRows := dataLines.map (fun line => buildRow headers (JS.splitChar '\t' line))
      let enhancedRows := rawRows.map enhanceRow
      let n := rawRows.length
      ⟨reportType, headers, enhancedRows, n,
        s!"Parsed {n} rows from {reportType} report"⟩

end FinanceService

namespace SubscriptionService

/-- A row of `SubscriptionService.parseCSVReport`: the parsed columns
plus the single derived field `_proceedsUSD`. -/
structure SubRow where
  fields : Obj
  proceedsUSD : JS.Num
deriving DecidableEq, Repr

/-- Result shape of `SubscriptionService.parseCSVReport` (early returns
modelled with `""`/`[]`/`0` for the absent properties). -/
structure SubParsedReport where
  reportType : String
  headers : List String
  rows : List SubRow
  rowCount : ℕ
  summary : String
deriving DecidableEq, Repr

/-- `SubscriptionService.parseCSVReport(csvData, reportType)`
(subscription-service.ts lines 376–412): same tab-separated parsing as
the finance variant, but `_proceedsUSD` is set directly to
`parseFloat(row['Developer Proceeds'] || row['Proceeds'] || '0')`
with no conversion of any kind ("already converted by Apple"). -/
def parseCSVReport (csvData : String) (reportType : String) : SubParsedReport :=
  if csvData = "" then ⟨"", [], [], 0, "No data available"⟩
  else
    match reportLines csvData with
    | [] => ⟨"", [], [], 0, "Empty report"⟩
    | hdr :: dataLines =>
      let headers := (JS.splitChar '\t' hdr).map JS.jsTrim
      let rows := dataLines.map (fun line =>
        let row := buildRow headers (JS.splitChar '\t' line)
        SubRow.mk row
          (JS.parseFloat
            (JS.jsOrS (row.getS "Developer Proceeds") (JS.jsOrS (row.getS "Proceeds") "0"))))
      let n := rows.length
      ⟨reportType, headers, rows, n, s!"Parsed {n} rows from {reportType} report"⟩

end SubscriptionService

namespace FinanceReportService

/-- `String.prototype.includes`: substring containment. -/
def listHasLead (p : List Char) (l : List Char) : Bool :=
  match p, l with
  | [], _ => true
  | _ :: _, [] => false
  | pc :: ps, c :: cs => pc = c && listHasLead ps cs

/-- Substring search over a character list. -/
def listHasSub (p : List Char) : List Char → Bool
  | [] => p.isEmpty
  | c :: cs => listHasLead p (c :: cs) || listHasSub p cs

/-- JS `s.includes(pat)`. -/
def strIncludes (s pat : String) : Bool := listHasSub pat.data s.data

/-- Metadata threaded through `parseFinanceReport`. -/
structure FinMeta where
  reportType : String
  regionCode : String
  fiscalPeriod : String
deriving DecidableEq, Repr

/-- A finance-report row: parsed columns plus `_revenue` (set only when
a revenue column was found, hence the outer `Option`). -/
structure FinRow where
  fields : Obj
  revenue : Option JS.Num
deriving DecidableEq, Repr

/-- Result shape of `FinanceReportService.parseFinanceReport`. -/
structure ParsedFinanceReport where
  headers : List String
  rows : List FinRow
  totalRevenue : JS.Num
  rowCount : ℕ
  metadata : FinMeta
deriving DecidableEq, Repr

/-- The contribution of one data row to `totalRevenue` in
`parseFinanceReport` (part_005 lines 145–162): the raw parsed revenue
value signed by the `Sales or Return` flag (`S` adds, `R` subtracts,
anything else contributes nothing); when no `Sales or Return` column
exists the value is always added.  No currency conversion is applied
anywhere in this computation. -/
def finRowDelta (revenueIdx : Option ℕ) (salesReturnIdx : Option ℕ)
    (values : List String) : JS.Num :=
  match revenueIdx with
  | none => some 0
  | some i =>
    let revenueValue := JS.parseFloat (JS.jsOrS (values.getD i "") "0")
    match salesReturnIdx with
    | some j =>
      let salesOrReturn := values.getD j ""
      if salesOrReturn = "S" then revenueValue
      else if salesOrReturn = "R" then JS.nNeg revenueValue
      else some 0
    | none => revenueValue

/-- `row._revenue` for one data row (assigned only when a revenue
column index was found). -/
def finRowRevenue (revenueIdx : Option ℕ) (values : List String) : Option JS.Num :=
  revenueIdx.map (fun i => JS.parseFloat (JS.jsOrS (values.getD i "") "0"))

/-- The TSV-parsing body of `FinanceReportService.parseFinanceReport`
(part_005 lines 96–174), applied to the already-decompressed text:
locate the key column indices by header search, then accumulate
`totalRevenue` over the data rows via `finRowDelta`. -/
def parseFinanceReportContent (content : String) (metadata : FinMeta) :
    ParsedFinanceReport :=
  let lines := reportLines content
  match lines with
  | [] => ⟨[], [], some 0, 0, metadata⟩
  | hdr :: dataLines =>
    let headers := (JS.splitChar '\t' hdr).map JS.jsTrim
    -- `quantityIdx` is computed by the source but never used afterwards
    let _quantityIdx := headers.findIdx?
      (fun h => strIncludes (JS.jsToLower h) "quantity" || h = "Units")
    let extendedShareIdx := headers.findIdx?
      (fun h => h = "Extended Partner Share" || strIncludes h "Extended")
    let partnerShareIdx := headers.findIdx?
      (fun h => h = "Partner Share" || strIncludes h "Partner Share")
    let salesReturnIdx := headers.findIdx?
      (fun h => h = "Sales or Return" || strIncludes h "Sales")
    -- `currencyIdx` is computed by the source but never used afterwards:
    -- no row is currency-converted
    let _currencyIdx := headers.findIdx?
      (fun h => h = "Partner Share Currency" || strIncludes h "Currency")
    let revenueIdx := extendedShareIdx.orElse (fun _ => partnerShareIdx)
    let rows := dataLines.map (fun line =>
      let values := JS.splitChar '\t' line
      FinRow.mk (buildRow headers values) (finRowRevenue revenueIdx values))
    let totalRevenue := dataLines.foldl
      (fun acc line => JS.nAdd acc (finRowDelta revenueIdx salesReturnIdx (JS.splitChar '\t' line)))
      (some 0)
    ⟨headers, rows, totalRevenue, rows.length, metadata⟩

end FinanceReportService

/-- The payload handed to the decompression step: a binary buffer, a
string, or any other JSON value (modelled by its `JSON.stringify`). -/
inductive Payload where
  | buf (bytes : List ℕ)
  | str (s : String)
  | jsonOther (stringified : String)
deriving DecidableEq, Repr

/-- Model of `buffer.toString('utf-8')` / decoding bytes as text. -/
def bytesToText (bytes : List ℕ) : String := ⟨bytes.map Char.ofNat⟩

/-- Model of `Buffer.from(s, 'binary')`. -/
def strToBytes (s : String) : List ℕ := s.data.map Char.toNat

/-- A decompression oracle standing for `zlib.gunzipSync`: `none`
models a decompression failure (an exception thrown at the call
site). -/
abbrev Gunzip := List ℕ → Option (List ℕ)

namespace FinanceService

/-- `FinanceService.decompressIfNeeded(data)` (finance-service.ts lines
364–401): gzip magic-byte sniffing with a try/catch fallback — when
decompression of a magic-byte payload fails, the raw bytes are returned
interpreted as text; the function never propagates the failure. -/
def decompressIfNeeded (gz : Gunzip) : Payload → String
  | .buf bytes =>
    if bytes.length > 2 ∧ bytes.getD 0 0 = 0x1f ∧ bytes.getD 1 0 = 0x8b then
      match gz bytes with
      | some d => bytesToText d
      | none => bytesToText bytes
    else bytesToText bytes
  | .str s =>
    if JS.charCodeAt s 0 = some 0x1f ∧ JS.charCodeAt s 1 = some 0x8b then
      match gz (strToBytes s) with
      | some d => bytesToText d
      | none => s
    else s
  | .jsonOther j => j

end FinanceService

namespace SubscriptionService

/-- `SubscriptionService.decompressIfNeeded(data)`
(subscription-service.ts lines 345–371): same buffer handling as the
finance variant; the string branch additionally requires
`data.length > 2` and falls through to `JSON.stringify(data)` for
non-gzip strings.  `JSON.stringify` of a string is modelled as the
quoted string (escape handling elided; no embedded quotes occur in any
statement below). -/
def decompressIfNeeded (gz : Gunzip) : Payload → String
  | .buf bytes =>
    if bytes.length > 2 ∧ bytes.getD 0 0 = 0x1f ∧ bytes.getD 1 0 = 0x8b then
      match gz bytes with
      | some d => bytesToText d
      | none => bytesToText bytes
    else bytesToText bytes
  | .str s =>
    if s.length > 2 ∧ JS.charCodeAt s 0 = some 0x1f ∧ JS.charCodeAt s 1 = some 0x8b then
      match gz (strToBytes s) with
      | some d => bytesToText d
      | none => s
    else "\"" ++ s ++ "\""
  | .jsonOther j => j

end SubscriptionService

namespace FinanceReportService

/-- The decompression prologue of
`FinanceReportService.parseFinanceReport` (part_005 lines 83–95).
Unlike the two `decompressIfNeeded` variants there is **no try/catch**:
`content = gunzipSync(data).toString('utf-8')` propagates any
decompression error, modelled by `Except.error`. -/
def decompressPrologue (gz : Gunzip) : Payload → Except Unit String
  | .buf bytes =>
    if bytes.length > 2 ∧ bytes.getD 0 0 = 0x1f ∧ bytes.getD 1 0 = 0x8b then
      match gz bytes with
      | some d => .ok (bytesToText d)
      | none => .error ()
    else .ok (bytesToText bytes)
  | .str s => .ok s
  | .jsonOther j => .ok j

/-- `FinanceReportService.parseFinanceReport(data, metadata)` in full:
the decompression prologue followed by the TSV parse.  A decompression
failure escapes as `Except.error`. -/
def parseFinanceReport (gz : Gunzip) (data : Payload) (metadata : FinMeta) :
    Except Unit ParsedFinanceReport :=
  (decompressPrologue gz data).map (fun content => parseFinanceReportContent content metadata)

/-- `FinanceReportService.getFiscalPeriod`'s month table (part_005
lines 352–365): Apple's fiscal year starts in October. -/
def fiscalMonthMap : ℕ → Option ℕ
  | 10 => some 1
  | 11 => some 2
  | 12 => some 3
  | 1 => some 4
  | 2 => some 5
  | 3 => some 6
  | 4 => some 7
  | 5 => some 8
  | 6 => some 9
  | 7 => some 10
  | 8 => some 11
  | 9 => some 12
  | _ => none

/-- `const fiscalYear = month >= 10 ? year + 1 : year`. -/
def fiscalYearOf (year month : ℕ) : ℕ := if 10 ≤ month then year + 1 else year

/-- `String(n).padStart(2, '0')`. -/
def pad2 (n : ℕ) : String :=
  if n < 10 then "0" ++ toString n else toString n

/-- `FinanceReportService.getFiscalPeriod(year, month)` (part_005 lines
349–371): `"{fiscalYear}-{fiscalMonth padded to 2 digits}"`.  For a
month outside 1–12 the table lookup is `undefined` and JS string
interpolation would render it as `"undefined"`. -/
def getFiscalPeriod (year month : ℕ) : String :=
  let fm :=
    match fiscalMonthMap month with
    | some k => pad2 k
    | none => "undefined"
  toString (fiscalYearOf year month) ++ "-" ++ fm

/-- The inverse direction of the fiscal mapping, used to state the
round-trip property: fiscal months 1–3 are October–December, fiscal
months 4–12 are January–September. -/
def calendarMonthOfFiscal (k : ℕ) : ℕ := if k ≤ 3 then k + 9 else k - 3

end FinanceReportService

/-- `String(n).padStart(2, '0')` as used in date-string construction. -/
def padStart2 (n : ℕ) : String := if n < 10 then "0" ++ toString n else toString n

/-- Replace the first binding of `k` in place, or append a new binding
at the end (JS `Map.prototype.set` / object-assignment order). -/
def assocSet {β : Type} : List (String × β) → String → β → List (String × β)
  | [], k, v => [(k, v)]
  | (k', v') :: t, k, v =>
    if k' = k then (k, v) :: t else (k', v') :: assocSet t k v

/-- Apply `f` to the value of the first binding of `k` (the mutation of
an entry obtained from `Map.prototype.get`). -/
def assocUpdate {β : Type} (f : β → β) : List (String × β) → String → List (String × β)
  | [], _ => []
  | (k', v) :: t, k =>
    if k' = k then (k, f v) :: t else (k', v) :: assocUpdate f t k

namespace FinanceService

/-- Value record of the `productMap` in
`calculateRevenueMetricsFromData`. -/
structure ProductData where
  revenue : JS.Num
  units : JS.Num
  title : String
deriving DecidableEq, Repr

/-- Value record of the `countryMap`. -/
structure CountryData where
  revenue : JS.Num
  units : JS.Num
deriving DecidableEq, Repr

/-- `row._proceedsUSD || parseFloat(row['Developer Proceeds'] ||
row['Proceeds'] || '0')` — the `revenue` variable of the aggregation
loop (finance-service.ts line 567). -/
def rowRevenue (r : EnhRow) : JS.Num :=
  JS.jsOrN r.proceedsUSD
    (JS.parseFloat
      (JS.jsOrS (r.fields.getS "Developer Proceeds") (JS.jsOrS (r.fields.getS "Proceeds") "0")))

/-- `parseInt(row['Units'] || row['Unit Sales'] || '0', 10)`. -/
def rowUnits (r : EnhRow) : JS.Num :=
  JS.parseInt (JS.jsOrS (r.fields.getS "Units") (JS.jsOrS (r.fields.getS "Unit Sales") "0"))

/-- `row['SKU'] || row['Product'] || 'Unknown'`. -/
def rowProduct (r : EnhRow) : String :=
  JS.jsOrS (r.fields.getS "SKU") (JS.jsOrS (r.fields.getS "Product") "Unknown")

/-- `row['Title'] || row['Product Title'] || product`. -/
def rowTitle (r : EnhRow) : String :=
  JS.jsOrS (r.fields.getS "Title") (JS.jsOrS (r.fields.getS "Product Title") (rowProduct r))

/-- `row['Country Code'] || row['Territory'] || 'Unknown'`. -/
def rowCountry (r : EnhRow) : String :=
  JS.jsOrS (r.fields.getS "Country Code") (JS.jsOrS (r.fields.getS "Territory") "Unknown")

/-- The contribution of one row to `metrics.totalRevenue`: the revenue
value when it passes the sanity guard `revenue > 0 && revenue <
1000000`, and `0` otherwise (finance-service.ts lines 582–586). -/
def totalContrib (r : EnhRow) : ℚ :=
  match rowRevenue r with
  | some x => if 0 < x ∧ x < 1000000 then x else 0
  | none => 0

/-- Accumulator of the aggregation loop in
`calculateRevenueMetricsFromData`. -/
structure CalcState where
  totalRevenue : ℚ
  totalUnits : JS.Num
  productMap : List (String × ProductData)
  countryMap : List (String × CountryData)
  activeSubscribers : ℚ
  newSubscribers : ℚ
deriving DecidableEq, Repr

/-- One iteration of the `for (const row of parsedData.rows)` loop
(finance-service.ts lines 564–603): subscription counters, the
sanity-guarded total, then the **unconditional** per-product and
per-country running sums. -/
def calcStep (s : CalcState) (r : EnhRow) : CalcState :=
  let revenue := rowRevenue r
  let units := rowUnits r
  let product := rowProduct r
  let title := rowTitle r
  let country := rowCountry r
  let active :=
    if r.fields.getS "Active Standard Price Subscriptions" ≠ "" then
      s.activeSubscribers +
        JS.jsOrNQ (JS.parseInt (r.fields.getS "Active Standard Price Subscriptions")) 0
    else s.activeSubscribers
  let newSubs :=
    if r.fields.getS "New Standard Price Subscriptions" ≠ "" then
      s.newSubscribers +
        JS.jsOrNQ (JS.parseInt (r.fields.getS "New Standard Price Subscriptions")) 0
    else s.newSubscribers
  let tot :=
    match revenue with
    | some x => if 0 < x ∧ x < 1000000 then s.totalRevenue + x else s.totalRevenue
    | none => s.totalRevenue
  let totU :=
    match revenue with
    | some x => if 0 < x ∧ x < 1000000 then JS.nAdd s.totalUnits units else s.totalUnits
    | none => s.totalUnits
  let pm0 :=
    if (s.productMap.lookup product).isSome then s.productMap
    else s.productMap ++ [(product, ⟨some 0, some 0, title⟩)]
  let pm := assocUpdate
    (fun d => { d with revenue := JS.nAdd d.revenue revenue, units := JS.nAdd d.units units })
    pm0 product
  let cm0 :=
    if (s.countryMap.lookup country).isSome then s.countryMap
    else s.countryMap ++ [(country, ⟨some 0, some 0⟩)]
  let cm := assocUpdate
    (fun d => { d with revenue := JS.nAdd d.revenue revenue, units := JS.nAdd d.units units })
    cm0 country
  ⟨tot, totU, pm, cm, active, newSubs⟩

/-- The state after aggregating all rows. -/
def calcFold (rows : List EnhRow) : CalcState :=
  rows.foldl calcStep ⟨0, some 0, [], [], 0, 0⟩

/-- An entry of `metrics.byProduct`. -/
structure ProductOut where
  sku : String
  title : String
  revenue : JS.Num
  units : JS.Num
deriving DecidableEq, Repr

/-- An entry of `metrics.byCountry`. -/
structure CountryOut where
  country : String
  revenue : JS.Num
  units : JS.Num
deriving DecidableEq, Repr

/-- `metrics.subscriptions`. -/
structure SubscriptionsOut where
  activeCount : ℚ
  newCount : ℚ
  cancelledCount : ℚ
  mrr : ℚ
  arr : ℚ
deriving DecidableEq, Repr

/-- The result of `calculateRevenueMetricsFromData`. -/
structure RevenueMetrics where
  totalRevenue : ℚ
  totalUnits : JS.Num
  byProduct : List ProductOut
  byCountry : List CountryOut
  subscriptions : Option SubscriptionsOut
deriving DecidableEq, Repr

/-- Stable descending insertion by a revenue key: the model of the
stable `sort((a, b) => b.revenue - a.revenue)` (no `NaN` revenue is
ever sorted in the statements below). -/
def insertByRevDesc {α : Type} (key : α → JS.Num) (x : α) : List α → List α
  | [] => [x]
  | y :: t => if JS.nGt (key x) (key y) then x :: y :: t else y :: insertByRevDesc key x t

/-- Stable descending sort by a revenue key. -/
def sortByRevDesc {α : Type} (key : α → JS.Num) (l : List α) : List α :=
  l.foldl (fun acc x => insertByRevDesc key x acc) []

/-- `FinanceService.calculateRevenueMetricsFromData(parsedData)`
(finance-service.ts lines 544–629): aggregate all rows via `calcStep`,
convert the maps to top-10 lists sorted by descending revenue, and
derive subscription metrics (`mrr` = total revenue, `arr = mrr × 12`,
both rounded to cents) when the report is subscription-shaped. -/
def calculateRevenueMetricsFromData (parsedData : ParsedReport) : RevenueMetrics :=
  if parsedData.rows = [] then ⟨0, some 0, [], [], none⟩
  else
    let st := calcFold parsedData.rows
    let byProduct :=
      ((sortByRevDesc (fun p => p.revenue)
        (st.productMap.map (fun p => ProductOut.mk p.1 p.2.title p.2.revenue p.2.units))).take 10)
    let byCountry :=
      ((sortByRevDesc (fun c => c.revenue)
        (st.countryMap.map (fun c => CountryOut.mk c.1 c.2.revenue c.2.units))).take 10)
    let subscriptions :=
      if parsedData.reportType = "SUBSCRIPTION" ∨ 0 < st.activeSubscribers then
        let mrr := st.totalRevenue
        some ⟨st.activeSubscribers, st.newSubscribers, 0, JS.round2 mrr, JS.round2 (mrr * 12)⟩
      else none
    ⟨st.totalRevenue, st.totalUnits, byProduct, byCountry, subscriptions⟩

end FinanceService

namespace FinanceService

/-- Outcome of the per-day `getSalesReport` call inside
`getMonthlyRevenue`'s `try`: a parsed report, a thrown error whose
message contains `'404'` (expected: no data that day), or any other
thrown error (logged and likewise swallowed by the `catch`). -/
inductive DayResult where
  | ok (report : ParsedReport)
  | notFound
  | failed
deriving Repr

/-- `true` exactly on a day whose fetch returned a report. -/
def DayResult.isOk : DayResult → Bool
  | .ok _ => true
  | _ => false

/-- `row._proceedsUSD || 0` (finance-service.ts line 682). -/
def dayRowRevenue (r : EnhRow) : ℚ := JS.jsOrNQ r.proceedsUSD 0

/-- `map.get(k) || 0` followed by `map.set(k, current + v)`. -/
def bumpQ (m : List (String × ℚ)) (k : String) (v : ℚ) : List (String × ℚ) :=
  assocSet m k (((m.lookup k).getD 0) + v)

/-- `monthlyData` accumulator of `getMonthlyRevenue` (finance-service.ts
lines 642–654).  The returned `stats` object spreads these fields and
adds derived statistics (`dailyAverage`, `perTransaction`, daily
min/median/max and the sorted top-10 projections of the breakdown
maps), none of which feed back into the fields below. -/
structure MonthlyAcc where
  year : ℕ
  month : ℕ
  monthName : String
  totalRevenue : ℚ
  totalTransactions : ℕ
  daysWithData : ℕ
  dailyRevenues : List ℚ
  countryBreakdown : List (String × ℚ)
  productBreakdown : List (String × ℚ)
  currencyBreakdown : List (String × ℚ)
  highRevenueDays : List (String × ℚ × ℕ)
deriving Repr

/-- `new Date(year, month, 0).getDate()` for calendar months 1–12:
the number of days in the month. -/
def isLeapYear (y : ℕ) : Bool := (y % 4 = 0 && y % 100 ≠ 0) || y % 400 = 0

/-- Day count of a calendar month (the value of
`new Date(year, month, 0).getDate()` for months 1–12). -/
def daysInMonth (y m : ℕ) : ℕ :=
  match m with
  | 1 => 31
  | 2 => if isLeapYear y then 29 else 28
  | 3 => 31
  | 4 => 30
  | 5 => 31
  | 6 => 30
  | 7 => 31
  | 8 => 31
  | 9 => 30
  | 10 => 31
  | 11 => 30
  | 12 => 31
  | _ => 0

/-- The enumerated days `1 .. daysInMonth` of the requested month. -/
def monthDays (y m : ℕ) : List ℕ := (List.range (daysInMonth y m)).map (· + 1)

/-- `` `${year}-${month pad2}-${day pad2}` ``. -/
def dateStrOf (y m d : ℕ) : String :=
  toString y ++ "-" ++ padStart2 m ++ "-" ++ padStart2 d

/-- `toLocaleDateString('en-US', { month: 'long' })`. -/
def monthLongName (m : ℕ) : String :=
  (["January", "February", "March", "April", "May", "June", "July",
    "August", "September", "October", "November", "December"]).getD (m - 1) ""

/-- One row of the per-day `report.rows.forEach` in
`getMonthlyRevenue` (finance-service.ts lines 680–700): add the row's
USD revenue to the running daily total and to the country, product and
currency breakdown maps. -/
def dayFoldStep (p : ℚ × List (String × ℚ) × List (String × ℚ) × List (String × ℚ))
    (row : EnhRow) : ℚ × List (String × ℚ) × List (String × ℚ) × List (String × ℚ) :=
  let revenue := dayRowRevenue row
  let country := JS.jsOrS (row.fields.getS "Country Code") "Unknown"
  let product := JS.jsOrS (row.fields.getS "Title")
    (JS.jsOrS (row.fields.getS "Product Title") "Unknown")
  let currency := JS.jsOrS (row.fields.getS "Customer Currency") "USD"
  (p.1 + revenue, bumpQ p.2.1 country revenue, bumpQ p.2.2.1 product revenue,
    bumpQ p.2.2.2 currency revenue)

/-- Processing of one enumerated day (finance-service.ts lines
666–720): a day whose fetch produced a report with at least one row is
counted and folded into the totals; a day that returned no report
(404, or any other swallowed error) leaves the accumulator unchanged. -/
def processDay (acc : MonthlyAcc) (dateStr : String) (res : DayResult) : MonthlyAcc :=
  match res with
  | .ok rpt =>
    if rpt.rows.length > 0 then
      let folded := rpt.rows.foldl dayFoldStep
        (0, acc.countryBreakdown, acc.productBreakdown, acc.currencyBreakdown)
      let dailyTotal := folded.1
      { acc with
        daysWithData := acc.daysWithData + 1
        totalTransactions := acc.totalTransactions + rpt.rows.length
        countryBreakdown := folded.2.1
        productBreakdown := folded.2.2.1
        currencyBreakdown := folded.2.2.2
        totalRevenue := acc.totalRevenue + dailyTotal
        dailyRevenues := acc.dailyRevenues ++ [dailyTotal]
        highRevenueDays :=
          if 10000 < dailyTotal then
            acc.highRevenueDays ++ [(dateStr, dailyTotal, rpt.rows.length)]
          else acc.highRevenueDays }
    else acc
  | _ => acc

/-- `FinanceService.getMonthlyRevenue(year, month)` (finance-service.ts
lines 637–774), with the per-day fetch abstracted as `fetch : day →
DayResult`: enumerate every calendar day of the month and fold each
day's outcome into the accumulator.  The `catch` swallows every
per-day error, so the operation always completes (the embedding is a
total function). -/
def getMonthlyRevenue (y m : ℕ) (fetch : ℕ → DayResult) : MonthlyAcc :=
  (monthDays y m).foldl
    (fun acc d => processDay acc (dateStrOf y m d) (fetch d))
    ⟨y, m, monthLongName m, 0, 0, 0, [], [], [], [], []⟩

/-- `stats.dailyAverage` (derived, does not feed the accumulator). -/
def dailyAverage (acc : MonthlyAcc) : ℚ :=
  if 0 < acc.daysWithData then acc.totalRevenue / acc.daysWithData else 0

/-- `stats.perTransaction` (derived, does not feed the accumulator). -/
def perTransaction (acc : MonthlyAcc) : ℚ :=
  if 0 < acc.totalTransactions then acc.totalRevenue / acc.totalTransactions else 0

/-- The per-day summed revenue a `DayResult` contributes to
`totalRevenue` (zero for absent days). -/
def dayTotalOf (res : DayResult) : ℚ :=
  match res with
  | .ok rpt => (rpt.rows.map dayRowRevenue).sum
  | _ => 0

end FinanceService

/-- Sum of the `revenue` components of an association map's values
(used to state properties of the running per-product and per-country
sums). -/
def assocRevSum {β : Type} (getRev : β → JS.Num) (m : List (String × β)) : JS.Num :=
  (m.map (fun p => getRev p.2)).foldl JS.nAdd (some 0)

/-! ## Helper lemmas -/

/-- `parseFloat('0') = 0`. -/
theorem parseFloat_zero : JS.parseFloat "0" = some 0 := by
  simp [JS.parseFloat, JS.takeDigits, JS.digit?, JS.isJsWs, JS.digitsVal, JS.fracVal, JS.pow10]

/-- `parseFloat('20') = 20`. -/
theorem parseFloat_twenty : JS.parseFloat "20" = some 20 := by
  simp [JS.parseFloat, JS.takeDigits, JS.digit?, JS.isJsWs, JS.digitsVal, JS.fracVal, JS.pow10]

/-- A row whose `Customer Currency` is `USD` (or absent) is left
untouched by the magnitude heuristic of `FinanceService.enhanceRow`. -/
theorem enhanceRow_usd_identity (o : Obj)
    (h : o.getS "Customer Currency" = "USD" ∨ o.getS "Customer Currency" = "") :
    (FinanceService.enhanceRow o).proceedsUSD = (FinanceService.enhanceRow o).proceedsRaw := by
  rcases h with h | h <;>
    simp +decide [FinanceService.enhanceRow, JS.jsOrS, h, FinanceService.highValueCurrencies]

/-- When both proceeds columns are missing or empty, the enriched
`_proceedsUSD` of `FinanceService.parseCSVReport` is `0` (conversion of
`0` is `0` in every branch of the heuristic). -/
theorem enhanceRow_empty_zero (o : Obj)
    (h1 : o.getS "Developer Proceeds" = "") (h2 : o.getS "Proceeds" = "") :
    (FinanceService.enhanceRow o).proceedsUSD = some 0 := by
  have hp : JS.jsOrS (o.getS "Developer Proceeds") (JS.jsOrS (o.getS "Proceeds") "0") = "0" := by
    rw [h1, h2]; rfl
  simp only [FinanceService.enhanceRow, hp, parseFloat_zero]
  split_ifs <;>
    simp [FinanceService.convertToUSDNum, FinanceService.convertToUSD]

/-! ## Claim theorems -/

/-- C2: for the sales-report row `{ "Developer Proceeds": "3.62",
"Customer Currency": "IDR", "Customer Price": "56126" }`,
`FinanceService.parseCSVReport` derives `_proceedsUSD = 3.62` — not
`3.62 × (IDR rate)` (i.e. not `convertToUSD 3.62 "IDR"`) and not
`56126`. -/
theorem sales_idr_row_proceeds_identity :
    (FinanceService.parseCSVReport
        "Developer Proceeds\tCustomer Currency\tCustomer Price\n3.62\tIDR\t56126"
        "SALES").rows.map (fun r => r.proceedsUSD) = [some (3.62 : ℚ)] ∧
    FinanceService.convertToUSD 3.62 "IDR" ≠ (3.62 : ℚ) ∧
    (3.62 : ℚ) ≠ 56126 := by
  refine ⟨?_, ?_, by norm_num⟩
  · have h : (FinanceService.parseCSVReport
        "Developer Proceeds\tCustomer Currency\tCustomer Price\n3.62\tIDR\t56126"
        "SALES").rows =
        [FinanceService.enhanceRow
          [("Developer Proceeds", "3.62"), ("Customer Currency", "IDR"),
           ("Customer Price", "56126")]] := rfl
    rw [h]
    simp +decide [FinanceService.enhanceRow, FinanceService.highValueCurrencies,
      Obj.getS, JS.jsOrS, JS.nGtQ, JS.nGt, JS.parseFloat, JS.takeDigits, JS.digit?,
      JS.isJsWs, JS.digitsVal, JS.fracVal, JS.pow10]
    norm_num [Rat.mkRat_eq_div]
  · simp +decide [FinanceService.convertToUSD, FinanceService.currencyRates, JS.jsToUpper,
      List.lookup]
    norm_num

/-- C1 (code bug evaluated at a failing input): contrary to the
documented identity semantics, `FinanceService.parseCSVReport` runs the
proceeds value of the row `{ "Developer Proceeds": "1500",
"Customer Currency": "IDR", "Customer Price": "23000000" }` through the
currency-rate multiplier (yielding `1500 × 0.000065 = 0.0975` instead
of `1500`), while `SubscriptionService.parseCSVReport` keeps the
identity on the same row. -/
theorem sales_heuristic_applies_conversion :
    (FinanceService.parseCSVReport
        "Developer Proceeds\tCustomer Currency\tCustomer Price\n1500\tIDR\t23000000"
        "SALES").rows.map (fun r => (r.proceedsRaw, r.proceedsUSD)) =
      [(some 1500, some (0.0975 : ℚ))] ∧
    (0.0975 : ℚ) ≠ 1500 ∧
    (SubscriptionService.parseCSVReport
        "Developer Proceeds\tCustomer Currency\tCustomer Price\n1500\tIDR\t23000000"
        "SALES").rows.map (fun r => r.proceedsUSD) = [some 1500] := by
  refine ⟨?_, by norm_num, ?_⟩
  · have h : (FinanceService.parseCSVReport
        "Developer Proceeds\tCustomer Currency\tCustomer Price\n1500\tIDR\t23000000"
        "SALES").rows =
        [FinanceService.enhanceRow
          [("Developer Proceeds", "1500"), ("Customer Currency", "IDR"),
           ("Customer Price", "23000000")]] := rfl
    rw [h]
    simp +decide [FinanceService.enhanceRow, FinanceService.highValueCurrencies,
      FinanceService.convertToUSDNum, FinanceService.convertToUSD,
      FinanceService.currencyRates, JS.jsToUpper, Obj.getS, JS.jsOrS, JS.nGtQ, JS.nGt,
      List.lookup, JS.parseFloat, JS.takeDigits, JS.digit?, JS.isJsWs, JS.digitsVal,
      JS.fracVal, JS.pow10]
    norm_num [Rat.mkRat_eq_div]
  · have h : (SubscriptionService.parseCSVReport
        "Developer Proceeds\tCustomer Currency\tCustomer Price\n1500\tIDR\t23000000"
        "SALES").rows =
        [SubscriptionService.SubRow.mk
          [("Developer Proceeds", "1500"), ("Customer Currency", "IDR"),
           ("Customer Price", "23000000")]
          (JS.parseFloat "1500")] := rfl
    rw [h]
    simp [JS.parseFloat, JS.takeDigits, JS.digit?, JS.isJsWs, JS.digitsVal,
      JS.fracVal, JS.pow10]

/-- C8 (counterexample): a non-empty, non-numeric proceeds field does
**not** default to `0.0` — `parseFloat('abc')` is `NaN` and both
parsers store that `NaN` in `_proceedsUSD`. -/
theorem proceeds_nan_not_zero_counterexample :
    (SubscriptionService.parseCSVReport "Developer Proceeds\nabc" "SALES").rows.map
        (fun r => r.proceedsUSD) = [none] ∧
    (FinanceService.parseCSVReport "Developer Proceeds\nabc" "SALES").rows.map
        (fun r => r.proceedsUSD) = [none] ∧
    (none : JS.Num) ≠ some 0 := by
  refine ⟨by decide, by decide, by decide⟩

/-- C8 (amended): `_proceedsUSD` is always populated — in
`SubscriptionService.parseCSVReport` it is exactly the `parseFloat` of
the proceeds column chain — and it defaults to `0.0` whenever the
`Developer Proceeds` and `Proceeds` columns are missing or empty, in
both services and for every currency; a non-empty non-numeric column
instead yields `NaN`. -/
theorem proceeds_populated_default_zero (csvData reportType : String) :
    (∀ r ∈ (SubscriptionService.parseCSVReport csvData reportType).rows,
        r.proceedsUSD =
          JS.parseFloat (JS.jsOrS (r.fields.getS "Developer Proceeds")
            (JS.jsOrS (r.fields.getS "Proceeds") "0")) ∧
        (r.fields.getS "Developer Proceeds" = "" → r.fields.getS "Proceeds" = "" →
          r.proceedsUSD = some 0)) ∧
    (∀ r ∈ (FinanceService.parseCSVReport csvData reportType).rows,
        r.fields.getS "Developer Proceeds" = "" → r.fields.getS "Proceeds" = "" →
          r.proceedsUSD = some 0) := by
  constructor
  · intro r hr
    simp only [SubscriptionService.parseCSVReport] at hr
    split at hr
    · simp at hr
    · split at hr
      · simp at hr
      · simp only [List.mem_map] at hr
        obtain ⟨line, _, rfl⟩ := hr
        refine ⟨rfl, fun h1 h2 => ?_⟩
        simp only [h1, h2, JS.jsOrS, if_pos rfl] at *
        simp [h1, h2, JS.jsOrS, parseFloat_zero]
  · intro r hr
    simp only [FinanceService.parseCSVReport] at hr
    split at hr
    · simp at hr
    · split at hr
      · simp at hr
      · simp only [List.mem_map] at hr
        obtain ⟨row, ⟨line, _, rfl⟩, rfl⟩ := hr
        intro h1 h2
        exact enhanceRow_empty_zero _ h1 h2

/-- Witness for C8 (amended), at a report whose single data row has an
empty `Developer Proceeds` cell: both parsers derive `0`. -/
theorem proceeds_populated_default_zero_witness :
    (SubscriptionService.parseCSVReport "Developer Proceeds\n\tx" "SALES").rows.map
        (fun r => r.proceedsUSD) = [some 0] ∧
    (FinanceService.parseCSVReport "Developer Proceeds\n\tx" "SALES").rows.map
        (fun r => r.proceedsUSD) = [some 0] := by
  have h := proceeds_populated_default_zero "Developer Proceeds\n\tx" "SALES"
  have hs : (SubscriptionService.parseCSVReport "Developer Proceeds\n\tx" "SALES").rows =
      [SubscriptionService.SubRow.mk [("Developer Proceeds", "")] (JS.parseFloat "0")] := rfl
  have hf : (FinanceService.parseCSVReport "Developer Proceeds\n\tx" "SALES").rows =
      [FinanceService.enhanceRow [("Developer Proceeds", "")]] := rfl
  constructor
  · have hm : SubscriptionService.SubRow.mk [("Developer Proceeds", "")] (JS.parseFloat "0") ∈
        (SubscriptionService.parseCSVReport "Developer Proceeds\n\tx" "SALES").rows := by
      rw [hs]; exact List.mem_singleton_self _
    have h2 := (h.1 _ hm).2 rfl rfl
    rw [hs]
    simpa using h2
  · have hm : FinanceService.enhanceRow [("Developer Proceeds", "")] ∈
        (FinanceService.parseCSVReport "Developer Proceeds\n\tx" "SALES").rows := by
      rw [hf]; exact List.mem_singleton_self _
    have h2 := h.2 _ hm rfl rfl
    rw [hf]
    simpa using h2

/-- C3: in `parseFinanceReport`, a row flagged `S` contributes its
parsed partner-share value positively and a row flagged `R` contributes
its negation; the two rows `(100, S)` and `(20, R)` aggregate to a
`totalRevenue` of `80`. -/
theorem financial_sign_convention :
    (∀ (i j : ℕ) (values : List String) (q : ℚ),
        JS.parseFloat (JS.jsOrS (values.getD i "") "0") = some q →
        (values.getD j "" = "S" →
          FinanceReportService.finRowDelta (some i) (some j) values = some q) ∧
        (values.getD j "" = "R" →
          FinanceReportService.finRowDelta (some i) (some j) values = some (-q))) ∧
    (FinanceReportService.parseFinanceReportContent
        "Partner Share\tSales or Return\n100\tS\n20\tR"
        ⟨"FINANCIAL", "US", "2025-10"⟩).totalRevenue = some 80 := by
  constructor
  · intro i j values q hq
    simp only [List.getD, List.get?_eq_getElem?] at hq
    constructor
    · intro hS
      simp only [List.getD, List.get?_eq_getElem?] at hS
      simp [FinanceReportService.finRowDelta, List.getD, hq, hS]
    · intro hR
      simp only [List.getD, List.get?_eq_getElem?] at hR
      simp [FinanceReportService.finRowDelta, List.getD, hq, hR, JS.nNeg]
  · have h : (FinanceReportService.parseFinanceReportContent
        "Partner Share\tSales or Return\n100\tS\n20\tR"
        ⟨"FINANCIAL", "US", "2025-10"⟩).totalRevenue =
        JS.nAdd (JS.nAdd (some 0)
          (FinanceReportService.finRowDelta (some 0) (some 1) ["100", "S"]))
          (FinanceReportService.finRowDelta (some 0) (some 1) ["20", "R"]) := rfl
    rw [h]
    simp [FinanceReportService.finRowDelta, JS.jsOrS, JS.nNeg, JS.nAdd, List.getD,
      JS.parseFloat, JS.takeDigits, JS.digit?, JS.isJsWs, JS.digitsVal, JS.fracVal,
      JS.pow10]
    norm_num [Rat.mkRat_eq_div]

/-- Witness for C3 at the concrete return row `(20, R)`. -/
theorem financial_sign_convention_witness :
    FinanceReportService.finRowDelta (some 0) (some 1) ["20", "R"] = some (-20) ∧
    (FinanceReportService.parseFinanceReportContent
        "Partner Share\tSales or Return\n100\tS\n20\tR"
        ⟨"FINANCIAL", "US", "2025-10"⟩).totalRevenue = some 80 := by
  refine ⟨?_, financial_sign_convention.2⟩
  exact (financial_sign_convention.1 0 1 ["20", "R"] 20 (by
    show JS.parseFloat (JS.jsOrS "20" "0") = some 20
    simpa [JS.jsOrS] using parseFloat_twenty)).2 rfl

/-- C4 (counterexample): a non-USD aggregated financial row is **not**
converted through the currency table — the `EUR` row of `100`
contributes `100` to `totalRevenue`, although `convertToUSD 100 "EUR"`
would be `110`. -/
theorem financial_no_conversion_counterexample :
    (FinanceReportService.parseFinanceReportContent
        "Partner Share\tPartner Share Currency\tSales or Return\n100\tEUR\tS"
        ⟨"FINANCIAL", "US", "2025-10"⟩).totalRevenue = some 100 ∧
    FinanceService.convertToUSD 100 "EUR" = 110 ∧ (100 : ℚ) ≠ 110 := by
  refine ⟨?_, ?_, by norm_num⟩
  · have h : (FinanceReportService.parseFinanceReportContent
        "Partner Share\tPartner Share Currency\tSales or Return\n100\tEUR\tS"
        ⟨"FINANCIAL", "US", "2025-10"⟩).totalRevenue =
        JS.nAdd (some 0)
          (FinanceReportService.finRowDelta (some 0) (some 2) ["100", "EUR", "S"]) := rfl
    rw [h]
    simp [FinanceReportService.finRowDelta, JS.jsOrS, JS.nAdd, List.getD,
      JS.parseFloat, JS.takeDigits, JS.digit?, JS.isJsWs, JS.digitsVal, JS.fracVal,
      JS.pow10]
  · simp +decide [FinanceService.convertToUSD, FinanceService.currencyRates,
      JS.jsToUpper, List.lookup]
    norm_num

/-- C4 (amended): the contribution of an aggregated financial-report
row to `totalRevenue` is its **raw** parsed partner-share value signed
by the sale/return flag; the `Partner Share Currency` cell — whatever
its value — never influences the contribution, and no rate-table
conversion is applied (`convertToUSD` exists in `FinanceService` but is
not invoked by `parseFinanceReport`). -/
theorem financial_contribution_ignores_currency :
    (∀ (i j k : ℕ) (values : List String) (cur : String), k ≠ i → k ≠ j →
        FinanceReportService.finRowDelta (some i) (some j) (values.set k cur) =
          FinanceReportService.finRowDelta (some i) (some j) values) ∧
    (∀ (i j : ℕ) (values : List String) (q : ℚ),
        JS.parseFloat (JS.jsOrS (values.getD i "") "0") = some q →
        FinanceReportService.finRowDelta (some i) (some j) values =
          some (if values.getD j "" = "S" then q
                else if values.getD j "" = "R" then -q else 0)) ∧
    (FinanceReportService.parseFinanceReportContent
        "Extended Partner Share\tPartner Share Currency\tSales or Return\n50\tJPY\tS"
        ⟨"FINANCIAL", "JP", "2025-10"⟩).totalRevenue = some 50 := by
  refine ⟨?_, ?_, ?_⟩
  · intro i j k values cur hki hkj
    simp [FinanceReportService.finRowDelta, List.getD,
      List.getElem?_set_ne hki, List.getElem?_set_ne hkj]
  · intro i j values q hq
    simp only [List.getD, List.get?_eq_getElem?] at hq
    by_cases hS : values.getD j "" = "S"
    · simp only [List.getD, List.get?_eq_getElem?] at hS
      simp [FinanceReportService.finRowDelta, List.getD, hq, hS]
    · by_cases hR : values.getD j "" = "R"
      · simp only [List.getD, List.get?_eq_getElem?] at hS hR
        simp [FinanceReportService.finRowDelta, List.getD, hq, hS, hR, JS.nNeg]
      · simp only [List.getD, List.get?_eq_getElem?] at hS hR
        simp [FinanceReportService.finRowDelta, List.getD, hq, hS, hR]
  · have h : (FinanceReportService.parseFinanceReportContent
        "Extended Partner Share\tPartner Share Currency\tSales or Return\n50\tJPY\tS"
        ⟨"FINANCIAL", "JP", "2025-10"⟩).totalRevenue =
        JS.nAdd (some 0)
          (FinanceReportService.finRowDelta (some 0) (some 2) ["50", "JPY", "S"]) := rfl
    rw [h]
    simp [FinanceReportService.finRowDelta, JS.jsOrS, JS.nAdd, List.getD,
      JS.parseFloat, JS.takeDigits, JS.digit?, JS.isJsWs, JS.digitsVal, JS.fracVal,
      JS.pow10]

/-- Witness for C4 (amended): replacing the currency cell `EUR` by
`IDR` leaves the contribution unchanged, and the sale row of `20`
contributes exactly `20`. -/
theorem financial_contribution_ignores_currency_witness :
    FinanceReportService.finRowDelta (some 0) (some 2) (["20", "EUR", "S"].set 1 "IDR") =
      FinanceReportService.finRowDelta (some 0) (some 2) ["20", "EUR", "S"] ∧
    FinanceReportService.finRowDelta (some 0) (some 2) ["20", "EUR", "S"] = some 20 := by
  refine ⟨financial_contribution_ignores_currency.1 0 2 1 _ _ (by decide) (by decide), ?_⟩
  have h := financial_contribution_ignores_currency.2.1 0 2 ["20", "EUR", "S"] 20 (by
    show JS.parseFloat (JS.jsOrS "20" "0") = some 20
    simpa [JS.jsOrS] using parseFloat_twenty)
  simpa using h

/-- C5: `getFiscalPeriod`'s month table is a bijection on the 12
calendar months — October maps to fiscal month 1 through September to
fiscal month 12, the mapping round-trips through its inverse, it is
injective on 1–12, and the fiscal year is `year + 1` exactly for
months ≥ 10. -/
theorem fiscal_period_bijection (y m : ℕ) (h1 : 1 ≤ m) (h2 : m ≤ 12) :
    ((FinanceReportService.fiscalMonthMap m).isSome ∧
      1 ≤ (FinanceReportService.fiscalMonthMap m).getD 0 ∧
      (FinanceReportService.fiscalMonthMap m).getD 0 ≤ 12 ∧
      FinanceReportService.calendarMonthOfFiscal
        ((FinanceReportService.fiscalMonthMap m).getD 0) = m ∧
      (∀ n, n ≤ 12 → 1 ≤ n →
        FinanceReportService.fiscalMonthMap n = FinanceReportService.fiscalMonthMap m →
        n = m)) ∧
    FinanceReportService.fiscalMonthMap 10 = some 1 ∧
    FinanceReportService.fiscalMonthMap 9 = some 12 ∧
    (FinanceReportService.fiscalYearOf y m = y + 1 ↔ 10 ≤ m) ∧
    FinanceReportService.getFiscalPeriod y m =
      toString (FinanceReportService.fiscalYearOf y m) ++ "-" ++
        FinanceReportService.pad2 ((FinanceReportService.fiscalMonthMap m).getD 0) := by
  have key1 : ∀ n, n ≤ 12 → 1 ≤ n →
      ((FinanceReportService.fiscalMonthMap n).isSome ∧
        1 ≤ (FinanceReportService.fiscalMonthMap n).getD 0 ∧
        (FinanceReportService.fiscalMonthMap n).getD 0 ≤ 12 ∧
        FinanceReportService.calendarMonthOfFiscal
          ((FinanceReportService.fiscalMonthMap n).getD 0) = n) := by decide
  have key2 : ∀ n, n ≤ 12 → 1 ≤ n → ∀ n', n' ≤ 12 → 1 ≤ n' →
      FinanceReportService.fiscalMonthMap n' = FinanceReportService.fiscalMonthMap n →
      n' = n := by decide
  obtain ⟨ka, kb, kc, kd⟩ := key1 m h2 h1
  refine ⟨⟨ka, kb, kc, kd, key2 m h2 h1⟩, by decide, by decide, ?_, ?_⟩
  · unfold FinanceReportService.fiscalYearOf
    constructor
    · intro hEq
      by_contra hlt
      rw [if_neg hlt] at hEq
      omega
    · intro hge
      rw [if_pos hge]
  · obtain ⟨k, hk⟩ := Option.isSome_iff_exists.mp ka
    unfold FinanceReportService.getFiscalPeriod
    rw [hk]
    simp

/-- Witness for C5 at November 2025: fiscal month 2, fiscal year
2026. -/
theorem fiscal_period_bijection_witness :
    FinanceReportService.fiscalMonthMap 11 = some 2 ∧
    FinanceReportService.fiscalYearOf 2025 11 = 2025 + 1 := by
  have h := fiscal_period_bijection 2025 11 (by decide) (by decide)
  exact ⟨by decide, (h.2.2.2.1).mpr (by decide)⟩

/-- C9 (counterexample): on a malformed gzip payload (magic bytes
`1f 8b` but failing decompression) the two `decompressIfNeeded`
implementations fall back to the raw bytes as text, but
`FinanceReportService.parseFinanceReport` has no try/catch in its
decompression prologue and propagates the error. -/
theorem prologue_error_counterexample :
    FinanceReportService.parseFinanceReport (fun _ => none)
        (Payload.buf [0x1f, 0x8b, 8]) ⟨"FINANCIAL", "US", "2025-10"⟩ = Except.error () ∧
    FinanceService.decompressIfNeeded (fun _ => none) (Payload.buf [0x1f, 0x8b, 8]) =
      bytesToText [0x1f, 0x8b, 8] ∧
    SubscriptionService.decompressIfNeeded (fun _ => none) (Payload.buf [0x1f, 0x8b, 8]) =
      bytesToText [0x1f, 0x8b, 8] :=
  ⟨rfl, rfl, rfl⟩

/-- C9 (amended): on any payload carrying the gzip magic bytes whose
decompression fails, `FinanceService.decompressIfNeeded` and
`SubscriptionService.decompressIfNeeded` return the raw payload
interpreted as text (they never propagate the failure), whereas the
decompression prologue of `FinanceReportService.parseFinanceReport`
raises (`Except.error`). -/
theorem decompress_never_raises_but_prologue_does (gz : Gunzip) (bytes : List ℕ) (s : String) :
    (bytes.length > 2 → bytes.getD 0 0 = 0x1f → bytes.getD 1 0 = 0x8b → gz bytes = none →
      FinanceService.decompressIfNeeded gz (Payload.buf bytes) = bytesToText bytes ∧
      SubscriptionService.decompressIfNeeded gz (Payload.buf bytes) = bytesToText bytes ∧
      FinanceReportService.decompressPrologue gz (Payload.buf bytes) = Except.error ()) ∧
    (JS.charCodeAt s 0 = some 0x1f → JS.charCodeAt s 1 = some 0x8b → gz (strToBytes s) = none →
      FinanceService.decompressIfNeeded gz (Payload.str s) = s ∧
      (s.length > 2 → SubscriptionService.decompressIfNeeded gz (Payload.str s) = s)) := by
  constructor
  · intro hl h0 h1 hgz
    simp only [List.getD, List.get?_eq_getElem?] at h0 h1
    refine ⟨?_, ?_, ?_⟩ <;>
      simp [FinanceService.decompressIfNeeded, SubscriptionService.decompressIfNeeded,
        FinanceReportService.decompressPrologue, List.getD, hl, h0, h1, hgz]
  · intro h0 h1 hgz
    constructor
    · simp [FinanceService.decompressIfNeeded, h0, h1, hgz]
    · intro hl
      simp [SubscriptionService.decompressIfNeeded, hl, h0, h1, hgz]

/-- Witness for C9 (amended) at the concrete malformed-gzip buffer
`[31, 139, 0]` and a string payload starting with the magic bytes. -/
theorem decompress_never_raises_witness :
    FinanceService.decompressIfNeeded (fun _ => none) (Payload.buf [31, 139, 0]) =
      bytesToText [31, 139, 0] ∧
    FinanceReportService.decompressPrologue (fun _ => none) (Payload.buf [31, 139, 0]) =
      Except.error () ∧
    FinanceService.decompressIfNeeded (fun _ => none)
        (Payload.str ⟨[Char.ofNat 31, Char.ofNat 139, 'x', 'y']⟩) =
      ⟨[Char.ofNat 31, Char.ofNat 139, 'x', 'y']⟩ := by
  have h := decompress_never_raises_but_prologue_does (fun _ => none) [31, 139, 0]
    ⟨[Char.ofNat 31, Char.ofNat 139, 'x', 'y']⟩
  have hb := h.1 (by decide) (by decide) (by decide) rfl
  have hs := h.2 (by decide) (by decide) rfl
  exact ⟨hb.1, hb.2.2, hs.1⟩

/-- `nAdd` swap of the two last summands. -/
theorem nAdd_right_comm (a b c : JS.Num) :
    JS.nAdd (JS.nAdd a b) c = JS.nAdd (JS.nAdd a c) b := by
  cases a <;> cases b <;> cases c <;> simp [JS.nAdd] <;> ring

/-- `some 0` is a right identity of `nAdd`. -/
theorem nAdd_some_zero (a : JS.Num) : JS.nAdd a (some 0) = a := by
  cases a <;> simp [JS.nAdd]

/-- A pending summand can be pulled out of a `nAdd` fold. -/
theorem foldl_nAdd_shift (l : List JS.Num) (a b : JS.Num) :
    l.foldl JS.nAdd (JS.nAdd a b) = JS.nAdd (l.foldl JS.nAdd a) b := by
  induction l generalizing a with
  | nil => rfl
  | cons x t ih =>
    simp only [List.foldl]
    rw [nAdd_right_comm a b x, ih]

/-- Unfolding `assocRevSum` over a cons cell. -/
theorem assocRevSum_cons {β : Type} (getRev : β → JS.Num) (e : String × β)
    (t : List (String × β)) :
    assocRevSum getRev (e :: t) = JS.nAdd (assocRevSum getRev t) (getRev e.2) := by
  simp only [assocRevSum, List.map_cons, List.foldl_cons]
  exact foldl_nAdd_shift _ _ _

/-- Appending a fresh entry adds its revenue to the map sum. -/
theorem assocRevSum_append_single {β : Type} (getRev : β → JS.Num)
    (m : List (String × β)) (k : String) (v : β) :
    assocRevSum getRev (m ++ [(k, v)]) = JS.nAdd (assocRevSum getRev m) (getRev v) := by
  simp only [assocRevSum, List.map_append, List.foldl_append, List.map_cons,
    List.map_nil, List.foldl_cons, List.foldl_nil]

/-- After appending the entry `(k, v)`, looking up `k` succeeds. -/
theorem lookup_append_single_isSome {β : Type} (m : List (String × β)) (k : String) (v : β) :
    ((m ++ [(k, v)]).lookup k).isSome := by
  induction m with
  | nil => simp [List.lookup]
  | cons e t ih =>
    obtain ⟨k', v'⟩ := e
    by_cases h : k = k'
    · simp [List.lookup, h]
    · have hb : (k == k') = false := beq_eq_false_iff_ne.mpr h
      simp [List.lookup, hb, ih]

/-- Updating an existing entry with a revenue-adding function adds that
revenue to the map sum. -/
theorem assocRevSum_update {β : Type} (getRev : β → JS.Num) (f : β → β) (rev : JS.Num)
    (hf : ∀ d, getRev (f d) = JS.nAdd (getRev d) rev) (m : List (String × β)) :
    ∀ k : String, (m.lookup k).isSome →
      assocRevSum getRev (assocUpdate f m k) = JS.nAdd (assocRevSum getRev m) rev := by
  induction m with
  | nil => intro k h; simp [List.lookup] at h
  | cons e t ih =>
    intro k h
    obtain ⟨k', v⟩ := e
    by_cases he : k' = k
    · have hu : assocUpdate f ((k', v) :: t) k = (k, f v) :: t := by
        simp [assocUpdate, he]
      rw [hu, assocRevSum_cons, assocRevSum_cons, hf]
      simp only
      cases assocRevSum getRev t <;> cases getRev v <;> cases rev <;>
        simp [JS.nAdd] <;> ring
    · have hb : (k == k') = false := beq_eq_false_iff_ne.mpr (fun hh => he hh.symm)
      have hl : (t.lookup k).isSome := by
        simpa [List.lookup, hb] using h
      have hu : assocUpdate f ((k', v) :: t) k = (k', v) :: assocUpdate f t k := by
        simp [assocUpdate, he]
      rw [hu, assocRevSum_cons, assocRevSum_cons, ih k hl, nAdd_right_comm]

/-- The get-or-create-then-add pattern of `calcStep` adds exactly the
row's revenue to the map sum, whether or not the key is new. -/
theorem phase_sum {β : Type} (getRev : β → JS.Num) (f : β → β) (rev : JS.Num)
    (hf : ∀ d, getRev (f d) = JS.nAdd (getRev d) rev)
    (m : List (String × β)) (p : String) (z : β) (hz : getRev z = some 0) :
    assocRevSum getRev
        (assocUpdate f (if (m.lookup p).isSome then m else m ++ [(p, z)]) p) =
      JS.nAdd (assocRevSum getRev m) rev := by
  by_cases hp : (m.lookup p).isSome
  · rw [if_pos hp, assocRevSum_update getRev f rev hf m p hp]
  · rw [if_neg hp,
      assocRevSum_update getRev f rev hf _ p (lookup_append_single_isSome m p z),
      assocRevSum_append_single, hz, nAdd_some_zero]

/-- One `calcStep` adds `totalContrib` to the running total. -/
theorem calcStep_totalRevenue (s : FinanceService.CalcState) (r : FinanceService.EnhRow) :
    (FinanceService.calcStep s r).totalRevenue =
      s.totalRevenue + FinanceService.totalContrib r := by
  cases hr : FinanceService.rowRevenue r with
  | none =>
    simp [FinanceService.calcStep, FinanceService.totalContrib, hr]
  | some x =>
    simp only [FinanceService.calcStep, FinanceService.totalContrib, hr]
    split_ifs <;> simp

/-- `phase_sum` specialized to the product map's value record. -/
theorem productPhase_sum (m : List (String × FinanceService.ProductData)) (p title : String)
    (rev units : JS.Num) :
    assocRevSum (fun d => d.revenue)
        (assocUpdate (fun d => { d with revenue := JS.nAdd d.revenue rev,
                                        units := JS.nAdd d.units units })
          (if (m.lookup p).isSome then m else m ++ [(p, ⟨some 0, some 0, title⟩)]) p) =
      JS.nAdd (assocRevSum (fun d => d.revenue) m) rev :=
  phase_sum _ _ _ (fun _ => rfl) _ _ _ rfl

/-- `phase_sum` specialized to the country map's value record. -/
theorem countryPhase_sum (m : List (String × FinanceService.CountryData)) (p : String)
    (rev units : JS.Num) :
    assocRevSum (fun d => d.revenue)
        (assocUpdate (fun d => { d with revenue := JS.nAdd d.revenue rev,
                                        units := JS.nAdd d.units units })
          (if (m.lookup p).isSome then m else m ++ [(p, ⟨some 0, some 0⟩)]) p) =
      JS.nAdd (assocRevSum (fun d => d.revenue) m) rev :=
  phase_sum _ _ _ (fun _ => rfl) _ _ _ rfl

/-- One `calcStep` adds the row's revenue to the product-map sum. -/
theorem calcStep_productSum (s : FinanceService.CalcState) (r : FinanceService.EnhRow) :
    assocRevSum (fun d => d.revenue) (FinanceService.calcStep s r).productMap =
      JS.nAdd (assocRevSum (fun d => d.revenue) s.productMap)
        (FinanceService.rowRevenue r) := by
  exact productPhase_sum _ _ _ _ _

/-- One `calcStep` adds the row's revenue to the country-map sum. -/
theorem calcStep_countrySum (s : FinanceService.CalcState) (r : FinanceService.EnhRow) :
    assocRevSum (fun d => d.revenue) (FinanceService.calcStep s r).countryMap =
      JS.nAdd (assocRevSum (fun d => d.revenue) s.countryMap)
        (FinanceService.rowRevenue r) := by
  exact countryPhase_sum _ _ _ _

/-- C7: `calculateRevenueMetricsFromData`'s total revenue is the sum of
per-row contributions, and any row whose revenue value exceeds the
`$1,000,000` sanity ceiling contributes `0` to that total (it is
excluded rather than summed). -/
theorem sanity_ceiling_zero_contribution (parsedData : FinanceService.ParsedReport) :
    (FinanceService.calculateRevenueMetricsFromData parsedData).totalRevenue =
      (parsedData.rows.map FinanceService.totalContrib).sum ∧
    (∀ (r : FinanceService.EnhRow) (x : ℚ), FinanceService.rowRevenue r = some x →
      1000000 < x → FinanceService.totalContrib r = 0) := by
  constructor
  · have hfold : ∀ (rows : List FinanceService.EnhRow) (s : FinanceService.CalcState),
        (rows.foldl FinanceService.calcStep s).totalRevenue =
          s.totalRevenue + (rows.map FinanceService.totalContrib).sum := by
      intro rows
      induction rows with
      | nil => intro s; simp
      | cons r t ih =>
        intro s
        simp only [List.foldl_cons, List.map_cons, List.sum_cons]
        rw [ih, calcStep_totalRevenue]
        ring
    unfold FinanceService.calculateRevenueMetricsFromData
    split
    · next h => simp [h]
    · next h =>
      simp only [FinanceService.calcFold]
      rw [hfold]
      simp
  · intro r x hx hgt
    unfold FinanceService.totalContrib
    rw [hx]
    show (if 0 < x ∧ x < 1000000 then x else 0) = 0
    rw [if_neg]
    rintro ⟨-, h2⟩
    linarith

/-- Witness for C7: a `$50,000,000` row contributes `0`, and a report
consisting of that single row totals `0`. -/
theorem sanity_ceiling_zero_contribution_witness :
    FinanceService.totalContrib
        ⟨[("SKU", "big")], "USD", some 0, some 50000000, some 50000000⟩ = 0 ∧
    (FinanceService.calculateRevenueMetricsFromData
        ⟨"SALES", [], [⟨[("SKU", "big")], "USD", some 0, some 50000000, some 50000000⟩],
          1, ""⟩).totalRevenue = 0 := by
  have hrev : FinanceService.rowRevenue
      ⟨[("SKU", "big")], "USD", some 0, some 50000000, some 50000000⟩ = some 50000000 := by
    simp +decide [FinanceService.rowRevenue, JS.jsOrN, JS.truthyN]
  have h := sanity_ceiling_zero_contribution
    ⟨"SALES", [], [⟨[("SKU", "big")], "USD", some 0, some 50000000, some 50000000⟩], 1, ""⟩
  have h0 := h.2 _ 50000000 hrev (by norm_num)
  refine ⟨h0, ?_⟩
  rw [h.1]
  simp [h0]

/-- C10: every row's revenue is added to the per-product and
per-country running sums unconditionally — the map sums equal the plain
sum of all row revenues, with no sign/ceiling filtering — so a report
whose single `$2,000,000` row is rejected from `totalRevenue` by the
sanity ceiling still carries that amount in `byProduct`, making the
`byProduct` revenue sum strictly exceed the reported `totalRevenue`. -/
theorem byproduct_sums_unconditional (parsedData : FinanceService.ParsedReport) :
    assocRevSum (fun d => d.revenue)
        (FinanceService.calcFold parsedData.rows).productMap =
      JS.nSum (parsedData.rows.map FinanceService.rowRevenue) ∧
    assocRevSum (fun d => d.revenue)
        (FinanceService.calcFold parsedData.rows).countryMap =
      JS.nSum (parsedData.rows.map FinanceService.rowRevenue) ∧
    JS.nSum ((FinanceService.calculateRevenueMetricsFromData
        ⟨"SALES", [], [⟨[("SKU", "big")], "USD", some 0, some 2000000, some 2000000⟩],
          1, ""⟩).byProduct.map (fun p => p.revenue)) = some 2000000 ∧
    (FinanceService.calculateRevenueMetricsFromData
        ⟨"SALES", [], [⟨[("SKU", "big")], "USD", some 0, some 2000000, some 2000000⟩],
          1, ""⟩).totalRevenue = 0 ∧
    (0 : ℚ) < 2000000 := by
  have hp : ∀ (rows : List FinanceService.EnhRow) (s : FinanceService.CalcState),
      assocRevSum (fun d => d.revenue) ((rows.foldl FinanceService.calcStep s).productMap) =
        rows.foldl (fun a r => JS.nAdd a (FinanceService.rowRevenue r))
          (assocRevSum (fun d => d.revenue) s.productMap) := by
    intro rows
    induction rows with
    | nil => intro s; rfl
    | cons r t ih =>
      intro s
      simp only [List.foldl_cons]
      rw [ih]
      congr 1
      exact calcStep_productSum s r
  have hc : ∀ (rows : List FinanceService.EnhRow) (s : FinanceService.CalcState),
      assocRevSum (fun d => d.revenue) ((rows.foldl FinanceService.calcStep s).countryMap) =
        rows.foldl (fun a r => JS.nAdd a (FinanceService.rowRevenue r))
          (assocRevSum (fun d => d.revenue) s.countryMap) := by
    intro rows
    induction rows with
    | nil => intro s; rfl
    | cons r t ih =>
      intro s
      simp only [List.foldl_cons]
      rw [ih]
      congr 1
      exact calcStep_countrySum s r
  refine ⟨?_, ?_, ?_, ?_, by norm_num⟩
  · rw [FinanceService.calcFold, hp, JS.nSum, List.foldl_map]
    rfl
  · rw [FinanceService.calcFold, hc, JS.nSum, List.foldl_map]
    rfl
  · simp +decide [FinanceService.calculateRevenueMetricsFromData, FinanceService.calcFold,
      FinanceService.calcStep, FinanceService.rowRevenue, FinanceService.rowUnits,
      FinanceService.rowProduct, FinanceService.rowTitle, FinanceService.rowCountry,
      Obj.getS, JS.jsOrS, JS.jsOrN, JS.truthyN, JS.parseInt, JS.takeDigits, JS.digit?,
      JS.isJsWs, JS.digitsVal, JS.nAdd, JS.nSum, assocUpdate, List.lookup,
      FinanceService.sortByRevDesc, FinanceService.insertByRevDesc, JS.nGt]
  · simp +decide [FinanceService.calculateRevenueMetricsFromData, FinanceService.calcFold,
      FinanceService.calcStep, FinanceService.rowRevenue, FinanceService.rowUnits,
      Obj.getS, JS.jsOrS, JS.jsOrN, JS.truthyN, JS.parseInt, JS.takeDigits, JS.digit?,
      JS.isJsWs, JS.digitsVal, List.lookup]

/-- The running total component of the per-day row fold is the starting
total plus the sum of the rows' USD revenues. -/
theorem dayFold_total (rows : List FinanceService.EnhRow) :
    ∀ p : ℚ × List (String × ℚ) × List (String × ℚ) × List (String × ℚ),
      (rows.foldl FinanceService.dayFoldStep p).1 =
        p.1 + (rows.map FinanceService.dayRowRevenue).sum := by
  induction rows with
  | nil => intro p; simp
  | cons r t ih =>
    intro p
    simp only [List.foldl_cons, List.map_cons, List.sum_cons, ih,
      FinanceService.dayFoldStep]
    ring

/-- C6: when every day of the month either yields a report with data or
raises a not-found error, `getMonthlyRevenue` completes (the embedding
is total: the catch swallows every per-day error) with `daysWithData`
equal to the number of days that returned data and `totalRevenue` equal
to the sum of exactly those days' `_proceedsUSD` contributions. -/
theorem monthly_fanout_accounting (y m : ℕ) (fetch : ℕ → FinanceService.DayResult)
    (h : ∀ d ∈ FinanceService.monthDays y m,
      fetch d = FinanceService.DayResult.notFound ∨
      ∃ rpt, fetch d = FinanceService.DayResult.ok rpt ∧ rpt.rows ≠ []) :
    (FinanceService.getMonthlyRevenue y m fetch).daysWithData =
      (FinanceService.monthDays y m).countP (fun d => (fetch d).isOk) ∧
    (FinanceService.getMonthlyRevenue y m fetch).totalRevenue =
      ((FinanceService.monthDays y m).map
        (fun d => FinanceService.dayTotalOf (fetch d))).sum := by
  have aux : ∀ (ds : List ℕ) (acc : FinanceService.MonthlyAcc),
      (∀ d ∈ ds, fetch d = FinanceService.DayResult.notFound ∨
        ∃ rpt, fetch d = FinanceService.DayResult.ok rpt ∧ rpt.rows ≠ []) →
      ((ds.foldl (fun acc d =>
          FinanceService.processDay acc (FinanceService.dateStrOf y m d) (fetch d))
          acc).daysWithData =
        acc.daysWithData + ds.countP (fun d => (fetch d).isOk) ∧
       (ds.foldl (fun acc d =>
          FinanceService.processDay acc (FinanceService.dateStrOf y m d) (fetch d))
          acc).totalRevenue =
        acc.totalRevenue + (ds.map (fun d => FinanceService.dayTotalOf (fetch d))).sum) := by
    intro ds
    induction ds with
    | nil => intro acc _; simp
    | cons d t ih =>
      intro acc h'
      have ht := fun acc' => ih acc' (fun d' hd' => h' d' (List.mem_cons_of_mem _ hd'))
      rcases h' d (List.mem_cons_self d t) with hnf | ⟨rpt, hok, hne⟩
      · have hstep : FinanceService.processDay acc (FinanceService.dateStrOf y m d)
            (fetch d) = acc := by
          rw [hnf]; rfl
        have hcount : (fetch d).isOk = false := by rw [hnf]; rfl
        have hday : FinanceService.dayTotalOf (fetch d) = 0 := by rw [hnf]; rfl
        simp only [List.foldl_cons]
        rw [hstep]
        refine ⟨?_, ?_⟩
        · rw [(ht acc).1, List.countP_cons, hcount]
          simp
        · rw [(ht acc).2, List.map_cons, List.sum_cons, hday]
          ring
      · have hlen : rpt.rows.length > 0 := List.length_pos.mpr hne
        have hd2 : (FinanceService.processDay acc (FinanceService.dateStrOf y m d)
            (fetch d)).daysWithData = acc.daysWithData + 1 := by
          rw [hok]; simp [FinanceService.processDay, hlen]
        have htr : (FinanceService.processDay acc (FinanceService.dateStrOf y m d)
            (fetch d)).totalRevenue =
            acc.totalRevenue + (rpt.rows.map FinanceService.dayRowRevenue).sum := by
          rw [hok]
          simp [FinanceService.processDay, hlen, dayFold_total]
        have hcount : (fetch d).isOk = true := by rw [hok]; rfl
        have hday : FinanceService.dayTotalOf (fetch d) =
            (rpt.rows.map FinanceService.dayRowRevenue).sum := by rw [hok]; rfl
        simp only [List.foldl_cons]
        refine ⟨?_, ?_⟩
        · rw [(ht _).1, hd2, List.countP_cons, hcount]
          simp
          omega
        · rw [(ht _).2, htr, List.map_cons, List.sum_cons, hday]
          ring
  have hz := aux (FinanceService.monthDays y m)
    ⟨y, m, FinanceService.monthLongName m, 0, 0, 0, [], [], [], [], []⟩ h
  constructor
  · rw [FinanceService.getMonthlyRevenue, hz.1]
    simp
  · rw [FinanceService.getMonthlyRevenue, hz.2]
    simp

/-- Witness for C6: July 2025 (31 days) where days 5 and 17 return 404
and every other day yields a single `$100` row — `totalRevenue = 2900`
and `daysWithData = 29`. -/
theorem monthly_fanout_accounting_witness :
    (FinanceService.getMonthlyRevenue 2025 7 (fun d =>
        if d = 5 ∨ d = 17 then FinanceService.DayResult.notFound
        else FinanceService.DayResult.ok
          ⟨"SALES", [], [⟨[], "USD", some 0, some 100, some 100⟩], 1, ""⟩)).totalRevenue
      = 2900 ∧
    (FinanceService.getMonthlyRevenue 2025 7 (fun d =>
        if d = 5 ∨ d = 17 then FinanceService.DayResult.notFound
        else FinanceService.DayResult.ok
          ⟨"SALES", [], [⟨[], "USD", some 0, some 100, some 100⟩], 1, ""⟩)).daysWithData
      = 29 := by
  have h := monthly_fanout_accounting 2025 7 (fun d =>
      if d = 5 ∨ d = 17 then FinanceService.DayResult.notFound
      else FinanceService.DayResult.ok
        ⟨"SALES", [], [⟨[], "USD", some 0, some 100, some 100⟩], 1, ""⟩)
    (by
      intro d _
      by_cases hc : d = 5 ∨ d = 17
      · exact Or.inl (by simp [hc])
      · exact Or.inr ⟨⟨"SALES", [], [⟨[], "USD", some 0, some 100, some 100⟩], 1, ""⟩,
          by simp [hc], by simp⟩)
  have hdays : FinanceService.monthDays 2025 7 =
      [1, 2, 3, 4, 5, 6, 7, 8, 9, 10, 11, 12, 13, 14, 15, 16, 17, 18, 19, 20, 21, 22,
       23, 24, 25, 26, 27, 28, 29, 30, 31] := by decide
  refine ⟨?_, ?_⟩
  · rw [h.2, hdays]
    simp +decide [FinanceService.dayTotalOf, FinanceService.dayRowRevenue, JS.jsOrNQ]
    norm_num
  · rw [h.1]
    decide
